import Mathlib

/-!
Verification development for the calorieCounter repository
(`storage.py`, `weekly.py`, `calorie_widget.py`).

Shallow embedding notes:
* JSON scalar values are modelled by `JVal`; a physical line of a JSONL
  log file is modelled by `Line` at the granularity the program observes
  it (blank line, line whose `json.loads` fails, or a parsed object with
  the four fields the program reads).  `json.dumps` of a parsed object
  followed by `json.loads` is the identity for these values, so
  re-serialisation is the identity at this level.
* Python `datetime` objects are modelled by `Datetime` (civil fields at
  second granularity plus an optional UTC offset in minutes; `none`
  models a naive datetime).  The machine's local timezone is modelled as
  the fixed offset `LOCAL_OFFSET_MINUTES`.  Aware datetimes compare by
  instant, exactly as in Python; sub-second precision is below the
  model's granularity (the program persists timestamps with
  `timespec='seconds'`).
* Fallible I/O is modelled by explicit `Bool`/`Option` parameters
  (`archiveOk`, `readOk`, ...): the program's `except OSError` handlers
  are translated as the corresponding failure branch.
* Python exceptions raised by `int(...)` are modelled by `Except PyErr`.
-/

namespace CalorieCounter

/-- JSON scalar values as read back by `json.load`/`json.loads`. -/
inductive JVal where
  | jint (n : Int)
  | jstr (s : String)
  | jbool (b : Bool)
  | jnull
deriving DecidableEq

/-- Result of Python's `int(x)` on a JSON scalar: `ValueError` for a
non-numeric string, `TypeError` for `None`. -/
inductive PyErr where
  | valueError
  | typeError
deriving DecidableEq

/-- Python `int(s)` on a string: strip whitespace, optional sign, base-10
digits; anything else raises `ValueError` (modelled as `none`). -/
def pyIntStr (s : String) : Option Int :=
  let cs := ((s.toList.dropWhile Char.isWhitespace).reverse.dropWhile Char.isWhitespace).reverse
  let signed : Int × List Char :=
    match cs with
    | '+' :: rest => (1, rest)
    | '-' :: rest => (-1, rest)
    | _ => (1, cs)
  if signed.2.isEmpty then none
  else if signed.2.all (fun c => decide ('0' ≤ c ∧ c ≤ '9')) then
    some (signed.1 * (signed.2.foldl (fun acc c => acc * 10 + (c.toNat - 48)) 0 : Nat))
  else none

/-- Python `int(x)` for the JSON scalars occurring in the state file. -/
def pyInt (v : JVal) : Except PyErr Int :=
  match v with
  | .jint n => .ok n
  | .jbool b => .ok (if b then 1 else 0)
  | .jstr s =>
    match pyIntStr s with
    | some n => .ok n
    | none => .error .valueError
  | .jnull => .error .typeError

/-- Civil date, mirroring Python's `datetime.date`. -/
structure Date where
  year : Nat
  month : Nat
  day : Nat
deriving DecidableEq

/-- Leap-year test (proleptic Gregorian), as in `datetime._is_leap`. -/
def isLeap (y : Nat) : Bool :=
  y % 4 == 0 && (y % 100 != 0 || y % 400 == 0)

/-- Day count of month `m` in a non-leap year (`datetime._DAYS_IN_MONTH`). -/
def daysInMonthTab (m : Nat) : Nat :=
  match m with
  | 1 => 31 | 2 => 28 | 3 => 31 | 4 => 30 | 5 => 31 | 6 => 30
  | 7 => 31 | 8 => 31 | 9 => 30 | 10 => 31 | 11 => 30 | 12 => 31
  | _ => 0

/-- Cumulative days before month `m` in a non-leap year
(`datetime._DAYS_BEFORE_MONTH`). -/
def daysBeforeMonthTab (m : Nat) : Nat :=
  match m with
  | 1 => 0 | 2 => 31 | 3 => 59 | 4 => 90 | 5 => 120 | 6 => 151
  | 7 => 181 | 8 => 212 | 9 => 243 | 10 => 273 | 11 => 304 | 12 => 334
  | _ => 0

/-- Days in month `m` of year `y` (`datetime._days_in_month`). -/
def daysInMonth (y m : Nat) : Nat :=
  daysInMonthTab m + (if m = 2 ∧ isLeap y then 1 else 0)

/-- Days before January 1 of year `y` (`datetime._days_before_year`). -/
def daysBeforeYear (y : Nat) : Nat :=
  (y - 1) * 365 + (y - 1) / 4 - (y - 1) / 100 + (y - 1) / 400

/-- Days before the first of month `m` in year `y`
(`datetime._days_before_month`). -/
def daysBeforeMonth (y m : Nat) : Nat :=
  daysBeforeMonthTab m + (if 2 < m ∧ isLeap y then 1 else 0)

/-- Proleptic Gregorian ordinal of a date (`date.toordinal`), with
0001-01-01 having ordinal 1. -/
def Date.toordinal (d : Date) : Nat :=
  daysBeforeYear d.year + daysBeforeMonth d.year d.month + d.day

/-- Number of days in 400 / 100 / 4 Gregorian years. -/
def DI400Y : Nat := 146097

/-- Number of days in 100 Gregorian years. -/
def DI100Y : Nat := 36524

/-- Number of days in 4 Gregorian years. -/
def DI4Y : Nat := 1461

/-- Inverse of `Date.toordinal` (`datetime._ord2ymd`, the algorithm
behind `date.fromordinal`). -/
def fromordinal (n0 : Nat) : Date :=
  let n := n0 - 1
  let n400 := n / DI400Y
  let n := n % DI400Y
  let n100 := n / DI100Y
  let n := n % DI100Y
  let n4 := n / DI4Y
  let n := n % DI4Y
  let n1 := n / 365
  let n := n % 365
  let year := n400 * 400 + 1 + n100 * 100 + n4 * 4 + n1
  if n1 = 4 ∨ n100 = 4 then ⟨year - 1, 12, 31⟩
  else
    let leap := n1 == 3 && (n4 != 24 || n100 == 3)
    let month := (n + 50) >>> 5
    let preceding := daysBeforeMonthTab month + (if 2 < month ∧ leap then 1 else 0)
    if n < preceding then
      let m := month - 1
      let preceding2 := preceding - (daysInMonthTab m + (if m = 2 ∧ leap then 1 else 0))
      ⟨year, m, n - preceding2 + 1⟩
    else
      ⟨year, month, n - preceding + 1⟩

/-- Python `date` comparison: lexicographic on (year, month, day). -/
def dateLt (a b : Date) : Bool :=
  if a.year ≠ b.year then decide (a.year < b.year)
  else if a.month ≠ b.month then decide (a.month < b.month)
  else decide (a.day < b.day)

/-- Digit character `0`..`9` for a decimal digit (`n` taken modulo 10). -/
def digitChar (n : Nat) : Char := Char.ofNat (48 + n % 10)

/-- Two-digit zero-padded decimal rendering (`%02d` for values < 100). -/
def pad2 (n : Nat) : List Char := [digitChar (n / 10), digitChar n]

/-- Four-digit zero-padded decimal rendering (`%04d` for values < 10000). -/
def pad4 (n : Nat) : List Char :=
  [digitChar (n / 1000), digitChar (n / 100), digitChar (n / 10), digitChar n]

/-- ISO rendering of a date, `YYYY-MM-DD` (`date.isoformat`). -/
def Date.isoformat (d : Date) : String :=
  String.mk (pad4 d.year ++ '-' :: pad2 d.month ++ '-' :: pad2 d.day)

/-- Weekday abbreviation as produced by `date.strftime('%a')`;
ordinal 1 (0001-01-01) was a Monday. -/
def dayAbbrev (d : Date) : String :=
  match (d.toordinal + 6) % 7 with
  | 0 => "Mon" | 1 => "Tue" | 2 => "Wed" | 3 => "Thu"
  | 4 => "Fri" | 5 => "Sat" | _ => "Sun"

/-- The model of the machine's local timezone: a fixed UTC offset in
minutes (the program normalizes every datetime to this zone via
`astimezone()`). -/
def LOCAL_OFFSET_MINUTES : Int := 0

/-- Python `datetime` at second granularity.  `tzoffset` is the UTC
offset in minutes; `none` models a naive datetime. -/
structure Datetime where
  year : Nat
  month : Nat
  day : Nat
  hour : Nat
  minute : Nat
  second : Nat
  tzoffset : Option Int
deriving DecidableEq

/-- Date part of a datetime (`datetime.date()`). -/
def Datetime.date (dt : Datetime) : Date := ⟨dt.year, dt.month, dt.day⟩

/-- Field validation performed by the `datetime` constructor. -/
def fieldsOk (y mo d h mi s : Nat) : Bool :=
  decide (1 ≤ y) && decide (y ≤ 9999) && decide (1 ≤ mo) && decide (mo ≤ 12) &&
  decide (1 ≤ d) && decide (d ≤ daysInMonth y mo) &&
  decide (h ≤ 23) && decide (mi ≤ 59) && decide (s ≤ 59)

/-- Construct a datetime, validating fields as the `datetime`
constructor does (invalid fields raise `ValueError`, modelled `none`). -/
def buildDt (y mo d h mi s : Nat) (tz : Option Int) : Option Datetime :=
  if fieldsOk y mo d h mi s then some ⟨y, mo, d, h, mi, s, tz⟩ else none

/-- Field validity of an existing datetime value. -/
def Datetime.fieldsValid (dt : Datetime) : Bool :=
  fieldsOk dt.year dt.month dt.day dt.hour dt.minute dt.second

/-- Instant of a datetime in seconds on the proleptic Gregorian time
line (naive datetimes are taken at face value; Python refuses to compare
naive with aware, and the program only ever compares aware values). -/
def Datetime.instantSec (dt : Datetime) : Int :=
  (dt.date.toordinal : Int) * 86400 + (dt.hour : Int) * 3600 +
    (dt.minute : Int) * 60 + (dt.second : Int) - (dt.tzoffset.getD 0) * 60

/-- Python aware-datetime order (by instant). -/
def dtLe (a b : Datetime) : Bool := decide (a.instantSec ≤ b.instantSec)

/-- Strict Python aware-datetime order (by instant). -/
def dtLt (a b : Datetime) : Bool := decide (a.instantSec < b.instantSec)

/-- Python `datetime.astimezone()` with no argument: a naive datetime is
presumed local and just gets the local zone attached; an aware datetime
is converted to the same instant in the local zone (a no-op when the
offset is already local). -/
def astimezone (dt : Datetime) : Datetime :=
  match dt.tzoffset with
  | none => { dt with tzoffset := some LOCAL_OFFSET_MINUTES }
  | some o =>
    if o = LOCAL_OFFSET_MINUTES then dt
    else
      let t := dt.instantSec + LOCAL_OFFSET_MINUTES * 60
      let dd := fromordinal (t.ediv 86400).toNat
      let sod := (t.emod 86400).toNat
      ⟨dd.year, dd.month, dd.day, sod / 3600, sod % 3600 / 60, sod % 60,
        some LOCAL_OFFSET_MINUTES⟩

/-- Value of a decimal digit character, `none` for other characters. -/
def digitVal (c : Char) : Option Nat :=
  if '0' ≤ c ∧ c ≤ '9' then some (c.toNat - 48) else none

/-- Read two decimal digit characters. -/
def read2 (a b : Char) : Option Nat :=
  match digitVal a, digitVal b with
  | some x, some y => some (x * 10 + y)
  | _, _ => none

/-- Read four decimal digit characters. -/
def read4 (a b c d : Char) : Option Nat :=
  match digitVal a, digitVal b, digitVal c, digitVal d with
  | some w, some x, some y, some z => some (w * 1000 + x * 100 + y * 10 + z)
  | _, _, _, _ => none

/-- Parse the timezone suffix of an ISO datetime string: empty (naive),
`Z`, or `+HH:MM` / `-HH:MM`.  Outer `none` is a parse failure. -/
def parseTz : List Char → Option (Option Int)
  | [] => some none
  | ['Z'] => some (some 0)
  | ['+', h1, h2, ':', m1, m2] =>
    match read2 h1 h2, read2 m1 m2 with
    | some hh, some mm =>
      if hh ≤ 23 ∧ mm ≤ 59 then some (some ((hh : Int) * 60 + mm)) else none
    | _, _ => none
  | ['-', h1, h2, ':', m1, m2] =>
    match read2 h1 h2, read2 m1 m2 with
    | some hh, some mm =>
      if hh ≤ 23 ∧ mm ≤ 59 then some (some (-((hh : Int) * 60 + mm))) else none
    | _, _ => none
  | _ => none

/-- Parse the `HH:MM[:SS][offset]` part of an ISO datetime string. -/
def parseTimePart (y mo d : Nat) : List Char → Option Datetime
  | h1 :: h2 :: ':' :: m1 :: m2 :: rest =>
    match read2 h1 h2, read2 m1 m2 with
    | some h, some mi =>
      (match rest with
       | ':' :: s1 :: s2 :: rest2 =>
         match read2 s1 s2, parseTz rest2 with
         | some s, some tz => buildDt y mo d h mi s tz
         | _, _ => none
       | other =>
         match parseTz other with
         | some tz => buildDt y mo d h mi 0 tz
         | none => none)
    | _, _ => none
  | _ => none

/-- Parse an ISO datetime character list: `YYYY-MM-DD` optionally
followed by `T` (or a space) and a time part. -/
def fromisoChars : List Char → Option Datetime
  | [y1, y2, y3, y4, '-', m1, m2, '-', d1, d2] =>
    match read4 y1 y2 y3 y4, read2 m1 m2, read2 d1 d2 with
    | some y, some mo, some d => buildDt y mo d 0 0 0 none
    | _, _, _ => none
  | y1 :: y2 :: y3 :: y4 :: '-' :: m1 :: m2 :: '-' :: d1 :: d2 :: sep :: rest =>
    if sep = 'T' ∨ sep = ' ' then
      match read4 y1 y2 y3 y4, read2 m1 m2, read2 d1 d2 with
      | some y, some mo, some d => parseTimePart y mo d rest
      | _, _, _ => none
    else none
  | _ => none

/-- Model of `datetime.fromisoformat` on the string shapes this program
reads and writes (extended ISO format, seconds granularity). -/
def fromisoformat (s : String) : Option Datetime := fromisoChars s.toList

/-- Rendering of the UTC-offset suffix of `datetime.isoformat`. -/
def tzChars : Option Int → List Char
  | none => []
  | some o =>
    (if o < 0 then '-' else '+') :: pad2 (o.natAbs / 60) ++ ':' :: pad2 (o.natAbs % 60)

/-- Model of `datetime.isoformat(timespec='seconds')`. -/
def Datetime.isoformatSec (dt : Datetime) : String :=
  String.mk (pad4 dt.year ++ '-' :: pad2 dt.month ++ '-' :: pad2 dt.day ++ 'T' ::
    pad2 dt.hour ++ ':' :: pad2 dt.minute ++ ':' :: pad2 dt.second ++
    tzChars dt.tzoffset)

/-- Fields of a parsed JSONL log object that the program reads
(`item.get(...)` on the four keys it uses); `none` models an absent key. -/
structure Entry where
  timestamp : Option JVal
  delta : Option JVal
  calories_after : Option JVal
  action : Option JVal
deriving DecidableEq

/-- A physical line of a JSONL log file as the program observes it:
blank after `strip()`, a line whose `json.loads` fails, or a parsed
object.  `json.dumps` of a parsed object re-read by `json.loads` is the
identity, so re-serialisation of an `ok` line is the identity here. -/
inductive Line where
  | blank
  | junk
  | ok (e : Entry)
deriving DecidableEq

/-- Model of `CalorieStorage.parse_iso_datetime`: only a non-empty
string parses; `fromisoformat` failures give `None`; the result is
normalized with `astimezone()`. -/
def parse_iso_datetime (v : Option JVal) : Option Datetime :=
  match v with
  | some (.jstr s) => if s = "" then none else (fromisoformat s).map astimezone
  | _ => none

/-- Parsed timestamp of a log entry
(`parse_iso_datetime(item.get('timestamp'))`). -/
def parsedTs (e : Entry) : Option Datetime := parse_iso_datetime e.timestamp

/-- Keep test of `prune_session_log` / `prune_archive_log`:
the entry has a parseable timestamp at or after the cutoff instant. -/
def keepsAt (cutoff : Int) (e : Entry) : Bool :=
  match parsedTs e with
  | some t => decide (cutoff ≤ t.instantSec)
  | none => false

/-- Evict test of `prune_session_log`: the entry has a parseable
timestamp strictly before the cutoff instant. -/
def evictsAt (cutoff : Int) (e : Entry) : Bool :=
  match parsedTs e with
  | some t => decide (t.instantSec < cutoff)
  | none => false

/-- The `kept_lines` list computed by the prune loops: parseable entries
with timestamp at or after the cutoff, in file order (blank lines,
unparseable JSON and unparseable timestamps are skipped).  The source
builds `kept_lines` and `archived_lines` in one pass over the file; the
two lists are modelled by two comprehensions over the same lines. -/
def kept_lines (lines : List Line) (cutoff : Int) : List Entry :=
  lines.filterMap fun l =>
    match l with
    | .ok e => if keepsAt cutoff e then some e else none
    | _ => none

/-- The `archived_lines` list computed by `prune_session_log`: parseable
entries with timestamp strictly before the cutoff, in file order. -/
def archived_lines (lines : List Line) (cutoff : Int) : List Entry :=
  lines.filterMap fun l =>
    match l with
    | .ok e => if evictsAt cutoff e then some e else none
    | _ => none

/-- On-disk log files: the active session log and the archive log.
`none` models a file that does not exist. -/
structure LogsState where
  active : Option (List Line)
  archive : Option (List Line)
deriving DecidableEq

/-- Seconds in 7 days (`timedelta(days=7)`). -/
def SEVEN_DAYS_SEC : Int := 7 * 86400

/-- Model of `prune_archive_log`: a missing archive is left missing;
otherwise entries with parseable timestamps within the retention window
are re-serialised as the new archive content (atomic replace). -/
def prune_archive_log (archive : Option (List Line)) (nowI : Int)
    (retentionDays : Nat) : Option (List Line) :=
  match archive with
  | none => none
  | some ls =>
    some ((kept_lines ls (nowI - (retentionDays : Int) * 86400)).map Line.ok)

/-- Model of `prune_session_log`.  `nowI` is the instant of
`datetime.now(timezone.utc).astimezone()`; comparing timestamps against
`now - timedelta(days=7)` is comparing instants against
`nowI - SEVEN_DAYS_SEC`.  `archiveOk` models whether
`append_archive_lines` succeeds (its failure leaves both files
untouched and aborts the prune).  OS failures of the final atomic
rewrite itself are outside this model. -/
def prune_session_log (st : LogsState) (nowI : Int) (retentionDays : Nat)
    (archiveOk : Bool) : LogsState :=
  match st.active with
  | none => { st with archive := prune_archive_log st.archive nowI retentionDays }
  | some ls =>
    let cutoff := nowI - SEVEN_DAYS_SEC
    let kept := kept_lines ls cutoff
    let archived := archived_lines ls cutoff
    if !archived.isEmpty && !archiveOk then st
    else
      let archive1 :=
        if archived.isEmpty then st.archive
        else some (st.archive.getD [] ++ archived.map Line.ok)
      { active := some (kept.map Line.ok),
        archive := prune_archive_log archive1 nowI retentionDays }

/-- Model of `append_session_event`: on write failure the log is
unchanged and `false` is returned; on success the serialised event is
appended (creating the file if missing) and the log is pruned. -/
def append_session_event (st : LogsState) (now : Datetime) (delta after : Int)
    (action : String) (retentionDays : Nat) (writeOk archiveOk : Bool) :
    LogsState × Bool :=
  if !writeOk then (st, false)
  else
    let entry : Entry :=
      { timestamp := some (.jstr now.isoformatSec), delta := some (.jint delta),
        calories_after := some (.jint after), action := some (.jstr action) }
    (prune_session_log { st with active := some (st.active.getD [] ++ [.ok entry]) }
      now.instantSec retentionDays archiveOk, true)

deriving instance DecidableEq for Except

/-- Parsed JSON document of `state.json`, restricted to the four keys
`load_state` reads; `none` models an absent key. -/
structure StateDoc where
  calories : Option JVal
  left_click_amount : Option JVal
  right_click_amount : Option JVal
  session_start : Option JVal
deriving DecidableEq

/-- Content of the state file as `load_state` observes it: unreadable
(`OSError`), invalid JSON (`json.JSONDecodeError`, including an empty
file), or a parsed JSON document; a missing file is `Option.none` at
the call site. -/
inductive StateFile where
  | badJson
  | readError
  | doc (d : StateDoc)
deriving DecidableEq

/-- The three `int(...)` conversions of `load_state` in source order;
the first raised exception propagates. -/
def intFields (d : StateDoc) (dL dR : Int) : Except PyErr (Int × Int × Int) := do
  let c ← pyInt (d.calories.getD (.jint 0))
  let l ← pyInt (d.left_click_amount.getD (.jint dL))
  let r ← pyInt (d.right_click_amount.getD (.jint dR))
  pure (max 0 c, l, r)

/-- Model of `load_state`.  The returned tuple is
(calories, left amount, right amount, session start, needs_persist).
`ValueError` (non-numeric string field) and `OSError` are caught and
yield the full default tuple; `TypeError` (e.g. `int(None)`) is not
caught and propagates as an error. -/
def load_state (file : Option StateFile) (dL dR : Int) (now : Datetime) :
    Except PyErr (Int × Int × Int × Datetime × Bool) :=
  let defaults : Int × Int × Int × Datetime × Bool := (0, dL, dR, now, true)
  match file with
  | none => .ok defaults
  | some .badJson => .ok defaults
  | some .readError => .ok defaults
  | some (.doc d) =>
    match intFields d dL dR with
    | .error .valueError => .ok defaults
    | .error .typeError => .error .typeError
    | .ok (c, l, r) =>
      match parse_iso_datetime d.session_start with
      | none => .ok (c, max 0 l, max 0 r, now, true)
      | some ss => .ok (c, max 0 l, max 0 r, ss, false)

/-- The JSON document written by `save_state` (the atomic write of the
serialised document is abstracted; on success the state file holds
exactly this document). -/
def save_state_doc (c l r : Int) (ss : Datetime) : StateDoc :=
  { calories := some (.jint c), left_click_amount := some (.jint l),
    right_click_amount := some (.jint r),
    session_start := some (.jstr ss.isoformatSec) }

/-- Model of `iter_recent_session_events`: entries of the active log
with a parseable timestamp at or after `window_start`, in file order
(a missing file yields nothing). -/
def iter_recent_session_events (log : Option (List Line)) (ws : Datetime) :
    List Entry :=
  match log with
  | none => []
  | some ls =>
    ls.filterMap fun l =>
      match l with
      | .ok e =>
        match parse_iso_datetime e.timestamp with
        | some t => if dtLe ws t then some e else none
        | none => none
      | _ => none

/-- Python `%+d` formatting of an integer. -/
def fmtSignedInt (n : Int) : String :=
  if 0 ≤ n then "+" ++ toString n else toString n

/-- Round a rational `num / den` (with `den > 0`) to the nearest
integer, ties to even, as float formatting does for exactly
representable values. -/
def roundHalfEven (num : Int) (den : Nat) : Int :=
  let d : Int := den
  let q := num.ediv d
  let r := num.emod d
  if 2 * r < d then q
  else if d < 2 * r then q + 1
  else if q % 2 = 0 then q else q + 1

/-- Python `%+.1f` formatting of `total / days`.  The float division is
modelled as exact rational arithmetic with half-even rounding to one
decimal (they agree whenever the quotient is exactly representable, in
particular on every instance stated below). -/
def fmtAvg1 (total : Int) (days : Nat) : String :=
  let tenths := roundHalfEven (total * 10) days
  let sign := if tenths < 0 ∨ (tenths = 0 ∧ total < 0) then "-" else "+"
  sign ++ toString (tenths.natAbs / 10) ++ "." ++ toString (tenths.natAbs % 10)

/-- One bar of the weekly summary graph (the `daily_bars` dicts). -/
structure DayBar where
  day_key : String
  label : String
  net : Int
deriving DecidableEq

/-- Return shape of `build_last_week_summary`: either the plain string
the function returns on a read failure, or the structured
`{text, daily_bars}` summary; callers branch on `isinstance(str)`. -/
inductive SummaryResult where
  | message (s : String)
  | summary (text : String) (daily_bars : List DayBar)
deriving DecidableEq

/-- Whether the aggregator result is the plain-string shape. -/
def SummaryResult.isString : SummaryResult → Bool
  | .message _ => true
  | .summary _ _ => false

/-- Ordinal of the first day of the 7-day calendar window ending today
(`today.toordinal() - 6`). -/
def weekStartOrd (now : Datetime) : Nat := now.date.toordinal - 6

/-- The seven `day.isoformat()` keys of the window, oldest first. -/
def weekKeys (now : Datetime) : List String :=
  (List.range 7).map fun off => (fromordinal (weekStartOrd now + off)).isoformat

/-- Midnight of the first window day in the local zone
(`datetime.combine(start_day, datetime.min.time(), tzinfo=now.tzinfo)`). -/
def windowStart (now : Datetime) : Datetime :=
  let sd := fromordinal (weekStartOrd now)
  ⟨sd.year, sd.month, sd.day, 0, 0, 0, now.tzoffset⟩

/-- The `action not in ('add', 'subtract', 'reset', 'init')` filter:
only a string field equal to one of the four action names passes. -/
def countedAction (v : Option JVal) : Bool :=
  match v with
  | some (.jstr a) => a == "add" || a == "subtract" || a == "reset" || a == "init"
  | _ => false

/-- Python `int(x)` where both `TypeError` and `ValueError` are caught
(the `except (TypeError, ValueError): continue` pattern). -/
def pyIntOpt (v : JVal) : Option Int :=
  match pyInt v with
  | .ok n => some n
  | .error _ => none

/-- The per-event filters of the aggregation loop, in source order:
action check, timestamp parse, day-key membership in the window, delta
conversion.  Returns the parsed timestamp, day key and delta of a
qualifying event. -/
def qualifyEvent (keys : List String) (e : Entry) :
    Option (Datetime × String × Int) :=
  if countedAction e.action then
    match parse_iso_datetime e.timestamp with
    | some t =>
      let dk := (Datetime.date t).isoformat
      if dk ∈ keys then
        match pyIntOpt (e.delta.getD (.jint 0)) with
        | some d => some (t, dk, d)
        | none => none
      else none
    | none => none
  else none

/-- Mutable state of the aggregation loop: `totals_net` (association
list over the seven day keys), the set of keys of `day_has_data`, and
`first_session_event_ts`. -/
structure AggState where
  totals : List (String × Int)
  hasData : List String
  firstTs : Option Datetime
deriving DecidableEq

/-- Lookup in `totals_net` (`totals_net.get(day_key, 0)`). -/
def assocGet (l : List (String × Int)) (k : String) : Int :=
  match l.find? (fun p => p.fst == k) with
  | some p => p.snd
  | none => 0

/-- In-place `totals_net[day_key] += delta`. -/
def assocAdd (l : List (String × Int)) (k : String) (d : Int) :
    List (String × Int) :=
  l.map fun p => if p.fst == k then (p.fst, p.snd + d) else p

/-- One iteration of the aggregation loop over a session event. -/
def aggStep (keys : List String) (st : AggState) (e : Entry) : AggState :=
  match qualifyEvent keys e with
  | none => st
  | some (t, dk, d) =>
    { totals := assocAdd st.totals dk d,
      hasData := if dk ∈ st.hasData then st.hasData else dk :: st.hasData,
      firstTs :=
        match st.firstTs with
        | none => some t
        | some f => if dtLt t f then some t else some f }

/-- Accumulator of the rendering loop of `build_last_week_summary`:
text lines, graph bars, tracked-period net total and included-day
count. -/
structure RenderAcc where
  lines : List String
  bars : List DayBar
  total : Int
  days : Nat
deriving DecidableEq

/-- One iteration of the rendering loop over a window-day offset. -/
def renderStep (startOrd : Nat) (ag : AggState) (trackedDay : Date)
    (anyTracking : Bool) (acc : RenderAcc) (off : Nat) : RenderAcc :=
  let day := fromordinal (startOrd + off)
  let dk := day.isoformat
  if dateLt day trackedDay then acc
  else if !anyTracking then acc
  else
    let net := assocGet ag.totals dk
    if dk ∈ ag.hasData then
      { lines := acc.lines ++
          [dk ++ " (" ++ dayAbbrev day ++ "): net " ++ fmtSignedInt net ++ " kcal"],
        bars := acc.bars ++ [⟨dk, dayAbbrev day, net⟩],
        total := acc.total + net, days := acc.days + 1 }
    else
      { lines := acc.lines ++ [dk ++ " (" ++ dayAbbrev day ++ "): no data"],
        bars := acc.bars, total := acc.total + net, days := acc.days + 1 }

/-- Model of `build_last_week_summary`.  `readOk` models whether the
read of the session log succeeds (`OSError` during iteration yields the
plain failure string; a missing log file cannot fail to read). -/
def build_last_week_summary (log : Option (List Line)) (readOk : Bool)
    (now : Datetime) : SummaryResult :=
  let startOrd := weekStartOrd now
  let keys := weekKeys now
  let ws := windowStart now
  if log.isSome && !readOk then .message "Failed to read weekly summary."
  else
    let events := iter_recent_session_events log ws
    let ag := events.foldl (aggStep keys)
      { totals := keys.map (fun k => (k, 0)), hasData := [], firstTs := none }
    let trackedDay := (ag.firstTs.getD ws).date
    let anyTracking := ag.firstTs.isSome
    let r := (List.range 7).foldl
      (renderStep startOrd ag trackedDay anyTracking) ⟨[], [], 0, 0⟩
    let lines1 := r.lines ++ [""]
    let lines2 :=
      if r.days = 0 then lines1 ++ ["No tracked data in the last 7 days."]
      else lines1 ++
        ["Tracked-period net: " ++ fmtSignedInt r.total ++ " kcal",
         "Tracked-period average net: " ++ fmtAvg1 r.total r.days ++ " kcal/day"]
    .summary (String.intercalate "\n" lines2) r.bars

/-- In-memory state of the tray widget that the click handlers mutate. -/
structure WidgetState where
  calories : Int
  left_click_amount : Int
  right_click_amount : Int
  session_start : Datetime
deriving DecidableEq

/-- Storage effects issued by a click handler, in order:
`append_session_event(delta, calories_after, action)` and
`save_state(...)` (recorded as the document it writes). -/
inductive Effect where
  | appendEvent (delta calories_after : Int) (action : String)
  | saveState (doc : StateDoc)
deriving DecidableEq

/-- Whether an effect is a state save. -/
def Effect.isSave : Effect → Bool
  | .saveState _ => true
  | _ => false

/-- Model of `on_left_click`: the counter is incremented, an `add`
event append is attempted and the snapshot is saved.  The handler
ignores the append result (`appendOk`). -/
def on_left_click (w : WidgetState) (appendOk : Bool) :
    WidgetState × List Effect :=
  let _ := appendOk
  let cal := w.calories + w.left_click_amount
  ({ w with calories := cal },
   [.appendEvent w.left_click_amount cal "add",
    .saveState (save_state_doc cal w.left_click_amount w.right_click_amount
      w.session_start)])

/-- Model of `on_right_click`: the counter is decremented clamped at
zero; a `subtract` event is appended only when the counter actually
decreased; the snapshot is always saved.  The handler ignores the
append result (`appendOk`). -/
def on_right_click (w : WidgetState) (appendOk : Bool) :
    WidgetState × List Effect :=
  let _ := appendOk
  let before := w.calories
  let cal := max 0 (before - w.right_click_amount)
  let actual := before - cal
  ({ w with calories := cal },
   (if 0 < actual then [.appendEvent (-actual) cal "subtract"] else []) ++
   [.saveState (save_state_doc cal w.left_click_amount w.right_click_amount
      w.session_start)])

/-- Model of `on_reset`: a `reset` event append is attempted first; on
failure an error dialog is shown and the handler returns with the
in-memory state untouched and no save issued; on success the counter is
zeroed, `session_start` becomes the reset time, and the snapshot is
saved. -/
def on_reset (w : WidgetState) (resetTime : Datetime) (appendOk : Bool) :
    WidgetState × List Effect :=
  if !appendOk then (w, [.appendEvent 0 0 "reset"])
  else
    ({ w with calories := 0, session_start := resetTime },
     [.appendEvent 0 0 "reset",
      .saveState (save_state_doc 0 w.left_click_amount w.right_click_amount
        resetTime)])

/-! Helper lemmas: decimal rendering parses back. -/

theorem digitVal_digitChar (k : Nat) : digitVal (digitChar k) = some (k % 10) := by
  have h : k % 10 < 10 := Nat.mod_lt _ (by omega)
  unfold digitChar digitVal
  generalize k % 10 = m at *
  interval_cases m <;> decide

theorem read2_pad (n : Nat) (h : n < 100) :
    read2 (digitChar (n / 10)) (digitChar n) = some n := by
  simp only [read2, digitVal_digitChar]
  have : n / 10 % 10 * 10 + n % 10 = n := by omega
  simp [this]

theorem read4_pad (n : Nat) (h : n < 10000) :
    read4 (digitChar (n / 1000)) (digitChar (n / 100)) (digitChar (n / 10))
      (digitChar n) = some n := by
  simp only [read4, digitVal_digitChar]
  have : n / 1000 % 10 * 1000 + n / 100 % 10 * 100 + n / 10 % 10 * 10 + n % 10 = n := by
    omega
  simp [this]

theorem daysInMonthTab_le (m : Nat) : daysInMonthTab m ≤ 31 := by
  unfold daysInMonthTab
  split <;> omega

theorem fromisoChars_render (y mo d h mi s : Nat) (hok : fieldsOk y mo d h mi s = true) :
    fromisoChars (pad4 y ++ '-' :: pad2 mo ++ '-' :: pad2 d ++ 'T' ::
      pad2 h ++ ':' :: pad2 mi ++ ':' :: pad2 s ++
      ['+', '0', '0', ':', '0', '0']) =
    some ⟨y, mo, d, h, mi, s, some 0⟩ := by
  have hb := hok
  simp only [fieldsOk, Bool.and_eq_true, decide_eq_true_eq] at hb
  obtain ⟨⟨⟨⟨⟨⟨⟨⟨h1, h2⟩, h3⟩, h4⟩, h5⟩, h6⟩, h7⟩, h8⟩, h9⟩
    := hb
  have hmo : mo < 100 := by omega
  have hd : d < 100 := by
    have := daysInMonthTab_le mo
    simp only [daysInMonth] at h6
    split at h6 <;> omega
  have hy : y < 10000 := by omega
  simp only [pad4, pad2, List.cons_append, List.nil_append]
  show fromisoChars (_ :: _ :: _ :: _ :: '-' :: _ :: _ :: '-' :: _ :: _ :: 'T' :: _) = _
  unfold fromisoChars
  simp only [read4_pad y hy, read2_pad mo hmo, read2_pad d hd]
  have hz : read2 '0' '0' = some 0 := by decide
  norm_num [parseTimePart, read2_pad h (by omega), read2_pad mi (by omega),
    read2_pad s (by omega), parseTz, hz, buildDt, hok]

theorem fromisoformat_roundtrip (dt : Datetime) (hv : dt.fieldsValid = true)
    (ho : dt.tzoffset = some 0) :
    fromisoformat dt.isoformatSec = some dt := by
  obtain ⟨y, mo, d, h, mi, s, tz⟩ := dt
  simp only [Datetime.tzoffset] at ho
  subst ho
  simp only [Datetime.fieldsValid] at hv
  have := fromisoChars_render y mo d h mi s hv
  simpa [fromisoformat, Datetime.isoformatSec, tzChars, pad2, digitChar,
    String.toList] using this

/-! Helper lemmas about the prune partition. -/

theorem kept_lines_map_ok (es : List Entry) (c : Int) :
    kept_lines (es.map Line.ok) c = es.filter (keepsAt c) := by
  induction es with
  | nil => rfl
  | cons e t ih =>
    by_cases hk : keepsAt c e <;>
      simp_all [kept_lines, List.filterMap_cons, List.filter_cons]

theorem archived_lines_map_ok (es : List Entry) (c : Int) :
    archived_lines (es.map Line.ok) c = es.filter (evictsAt c) := by
  induction es with
  | nil => rfl
  | cons e t ih =>
    by_cases hk : evictsAt c e <;>
      simp_all [archived_lines, List.filterMap_cons, List.filter_cons]

theorem keepsAt_of_mem_kept {ls : List Line} {c : Int} {e : Entry}
    (h : e ∈ kept_lines ls c) : keepsAt c e = true := by
  unfold kept_lines at h
  rw [List.mem_filterMap] at h
  obtain ⟨l, _, hl⟩ := h
  cases l with
  | ok e2 =>
    by_cases hk : keepsAt c e2
    · simp [hk] at hl
      subst hl
      exact hk
    · simp [hk] at hl
  | blank => simp at hl
  | junk => simp at hl

theorem evictsAt_of_mem_archived {ls : List Line} {c : Int} {e : Entry}
    (h : e ∈ archived_lines ls c) : evictsAt c e = true := by
  unfold archived_lines at h
  rw [List.mem_filterMap] at h
  obtain ⟨l, _, hl⟩ := h
  cases l with
  | ok e2 =>
    by_cases hk : evictsAt c e2
    · simp [hk] at hl
      subst hl
      exact hk
    · simp [hk] at hl
  | blank => simp at hl
  | junk => simp at hl

theorem keepsAt_not_evictsAt {c : Int} {e : Entry} (h : keepsAt c e = true) :
    evictsAt c e = false := by
  unfold keepsAt at h
  unfold evictsAt
  cases hp : parsedTs e with
  | none => simp
  | some t =>
    rw [hp] at h
    simp only [decide_eq_true_eq] at h
    simp only [decide_eq_false_iff_not, not_lt]
    exact h

theorem mem_kept_of_parseable {ls : List Line} {c : Int} {e : Entry} {t : Datetime}
    (hmem : Line.ok e ∈ ls) (hp : parsedTs e = some t) (hle : c ≤ t.instantSec) :
    e ∈ kept_lines ls c := by
  unfold kept_lines
  rw [List.mem_filterMap]
  refine ⟨Line.ok e, hmem, ?_⟩
  have hk : keepsAt c e = true := by
    unfold keepsAt
    rw [hp]
    simpa using hle
  simp [hk]

theorem mem_archived_of_parseable {ls : List Line} {c : Int} {e : Entry} {t : Datetime}
    (hmem : Line.ok e ∈ ls) (hp : parsedTs e = some t) (hlt : t.instantSec < c) :
    e ∈ archived_lines ls c := by
  unfold archived_lines
  rw [List.mem_filterMap]
  refine ⟨Line.ok e, hmem, ?_⟩
  have hk : evictsAt c e = true := by
    unfold evictsAt
    rw [hp]
    simpa using hlt
  simp [hk]

theorem prune_active_stable (st2 : LogsState) (es : List Entry) (nowI : Int)
    (retentionDays : Nat) (archiveOk : Bool)
    (h : st2.active = some (es.map Line.ok))
    (hall : ∀ e ∈ es, keepsAt (nowI - SEVEN_DAYS_SEC) e = true) :
    (prune_session_log st2 nowI retentionDays archiveOk).active = st2.active := by
  have hkk : kept_lines (es.map Line.ok) (nowI - SEVEN_DAYS_SEC) = es := by
    rw [kept_lines_map_ok]
    exact List.filter_eq_self.mpr hall
  have hka : archived_lines (es.map Line.ok) (nowI - SEVEN_DAYS_SEC) = [] := by
    rw [archived_lines_map_ok]
    refine List.filter_eq_nil_iff.mpr fun e he => ?_
    simp [keepsAt_not_evictsAt (hall e he)]
  simp [prune_session_log, h, hkk, hka]

/-- C9: prune of the active log is idempotent.  For every pair of log
files, running `prune_session_log` twice with the same current time,
the same retention setting and the same archive-append outcome, and no
appends in between, leaves the active log with the same content as
running it once. -/
theorem claim_C9_prune_idempotent (st : LogsState) (nowI : Int)
    (retentionDays : Nat) (archiveOk : Bool) :
    (prune_session_log (prune_session_log st nowI retentionDays archiveOk)
        nowI retentionDays archiveOk).active =
      (prune_session_log st nowI retentionDays archiveOk).active := by
  cases hA : st.active with
  | none =>
    simp [prune_session_log, hA]
  | some ls =>
    by_cases hfail :
        (!(archived_lines ls (nowI - SEVEN_DAYS_SEC)).isEmpty && !archiveOk) = true
    · have h1 : prune_session_log st nowI retentionDays archiveOk = st := by
        simp [prune_session_log, hA, hfail]
      rw [h1, h1]
    · have h1 : (prune_session_log st nowI retentionDays archiveOk).active =
          some ((kept_lines ls (nowI - SEVEN_DAYS_SEC)).map Line.ok) := by
        simp [prune_session_log, hA, hfail]
      exact prune_active_stable _ _ nowI retentionDays archiveOk h1
        fun e he => keepsAt_of_mem_kept he

/-- C2: evicted entries are routed to the archive log before the active
log is rewritten, and a failing archive append aborts the prune with
both files completely untouched.  Stated as: (a) when there are evicted
entries and the archive append fails, `prune_session_log` returns the
store unchanged; (b) when it succeeds, the archive content is the old
archive with exactly the evicted entries appended (then pruned by the
archive retention pass) while the kept entries are rewritten as the
active log; (c) every parseable entry of the active log ends up in the
kept partition or the evicted partition, so none is ever lost. -/
theorem claim_C2_prune_failsafe (st : LogsState) (ls : List Line) (nowI : Int)
    (retentionDays : Nat) (hA : st.active = some ls) :
    ((archived_lines ls (nowI - SEVEN_DAYS_SEC)).isEmpty = false →
       prune_session_log st nowI retentionDays false = st) ∧
    ((archived_lines ls (nowI - SEVEN_DAYS_SEC)).isEmpty = false →
       prune_session_log st nowI retentionDays true =
         { active := some ((kept_lines ls (nowI - SEVEN_DAYS_SEC)).map Line.ok),
           archive := prune_archive_log
             (some (st.archive.getD [] ++
               (archived_lines ls (nowI - SEVEN_DAYS_SEC)).map Line.ok))
             nowI retentionDays }) ∧
    (∀ (e : Entry) (t : Datetime), Line.ok e ∈ ls → parsedTs e = some t →
       e ∈ kept_lines ls (nowI - SEVEN_DAYS_SEC) ∨
       e ∈ archived_lines ls (nowI - SEVEN_DAYS_SEC)) := by
  refine ⟨fun hne => ?_, fun hne => ?_, fun e t hmem hp => ?_⟩
  · simp [prune_session_log, hA, hne]
  · simp [prune_session_log, hA, hne]
  · rcases le_or_lt (nowI - SEVEN_DAYS_SEC) t.instantSec with hle | hlt
    · exact Or.inl (mem_kept_of_parseable hmem hp hle)
    · exact Or.inr (mem_archived_of_parseable hmem hp hlt)

/-- C2 witness: a concrete store with one evicted entry.  The failing
archive append leaves the store untouched; the succeeding one moves the
entry to the archive and rewrites the active log without it. -/
theorem claim_C2_witness :
    prune_session_log
        { active := some [Line.ok ⟨some (.jstr "2023-11-01T00:00:00+00:00"),
            some (.jint 5), some (.jint 5), some (.jstr "add")⟩],
          archive := none }
        (Datetime.instantSec ⟨2024, 1, 2, 12, 0, 0, some 0⟩) 90 false =
      { active := some [Line.ok ⟨some (.jstr "2023-11-01T00:00:00+00:00"),
          some (.jint 5), some (.jint 5), some (.jstr "add")⟩],
        archive := none } := by
  have h := claim_C2_prune_failsafe
    { active := some [Line.ok ⟨some (.jstr "2023-11-01T00:00:00+00:00"),
        some (.jint 5), some (.jint 5), some (.jstr "add")⟩],
      archive := none }
    [Line.ok ⟨some (.jstr "2023-11-01T00:00:00+00:00"),
      some (.jint 5), some (.jint 5), some (.jstr "add")⟩]
    (Datetime.instantSec ⟨2024, 1, 2, 12, 0, 0, some 0⟩) 90 rfl
  exact h.1 (by decide)

/-- C3: after a prune that completes successfully, the active log holds
exactly the re-serialised kept entries; every kept entry has a
parseable timestamp at or after the 7-day cutoff (so no parseable entry
older than the cutoff remains); every evicted entry has a parseable
timestamp strictly before the cutoff; and entries without a parseable
timestamp are dropped — neither kept nor archived. -/
theorem claim_C3_prune_partition (st : LogsState) (ls : List Line) (nowI : Int)
    (retentionDays : Nat) (hA : st.active = some ls) :
    (prune_session_log st nowI retentionDays true).active =
      some ((kept_lines ls (nowI - SEVEN_DAYS_SEC)).map Line.ok) ∧
    (∀ l ∈ (kept_lines ls (nowI - SEVEN_DAYS_SEC)).map Line.ok,
       ∃ e t, l = Line.ok e ∧ parsedTs e = some t ∧
         nowI - SEVEN_DAYS_SEC ≤ t.instantSec) ∧
    (∀ e ∈ archived_lines ls (nowI - SEVEN_DAYS_SEC),
       ∃ t, parsedTs e = some t ∧ t.instantSec < nowI - SEVEN_DAYS_SEC) ∧
    (∀ e : Entry, parsedTs e = none →
       e ∉ kept_lines ls (nowI - SEVEN_DAYS_SEC) ∧
       e ∉ archived_lines ls (nowI - SEVEN_DAYS_SEC)) := by
  refine ⟨?_, fun l hl => ?_, fun e he => ?_, fun e hp => ⟨fun hmem => ?_, fun hmem => ?_⟩⟩
  · simp [prune_session_log, hA]
  · rw [List.mem_map] at hl
    obtain ⟨e, he, rfl⟩ := hl
    have hk := keepsAt_of_mem_kept he
    unfold keepsAt at hk
    cases hp : parsedTs e with
    | none => rw [hp] at hk; cases hk
    | some t =>
      rw [hp] at hk
      exact ⟨e, t, rfl, hp, by simpa using hk⟩
  · have hk := evictsAt_of_mem_archived he
    unfold evictsAt at hk
    cases hp : parsedTs e with
    | none => rw [hp] at hk; cases hk
    | some t =>
      rw [hp] at hk
      exact ⟨t, rfl, by simpa using hk⟩
  · have hk := keepsAt_of_mem_kept hmem
    unfold keepsAt at hk
    rw [hp] at hk
    cases hk
  · have hk := evictsAt_of_mem_archived hmem
    unfold evictsAt at hk
    rw [hp] at hk
    cases hk

/-- C3 witness: a concrete prune over a fresh entry, a stale entry, a
malformed line and an entry with an unparseable timestamp. -/
theorem claim_C3_witness :
    (prune_session_log
        { active := some [
            Line.ok ⟨some (.jstr "2024-01-01T08:00:00+00:00"),
              some (.jint 50), some (.jint 50), some (.jstr "add")⟩,
            Line.ok ⟨some (.jstr "2023-11-01T00:00:00+00:00"),
              some (.jint 5), some (.jint 5), some (.jstr "add")⟩,
            Line.junk,
            Line.ok ⟨some (.jstr "not a time"),
              some (.jint 1), some (.jint 1), some (.jstr "add")⟩],
          archive := none }
        (Datetime.instantSec ⟨2024, 1, 2, 12, 0, 0, some 0⟩) 90 true).active =
      some [Line.ok ⟨some (.jstr "2024-01-01T08:00:00+00:00"),
        some (.jint 50), some (.jint 50), some (.jstr "add")⟩] := by
  have h := claim_C3_prune_partition
    { active := some [
        Line.ok ⟨some (.jstr "2024-01-01T08:00:00+00:00"),
          some (.jint 50), some (.jint 50), some (.jstr "add")⟩,
        Line.ok ⟨some (.jstr "2023-11-01T00:00:00+00:00"),
          some (.jint 5), some (.jint 5), some (.jstr "add")⟩,
        Line.junk,
        Line.ok ⟨some (.jstr "not a time"),
          some (.jint 1), some (.jint 1), some (.jstr "add")⟩],
      archive := none }
    [Line.ok ⟨some (.jstr "2024-01-01T08:00:00+00:00"),
        some (.jint 50), some (.jint 50), some (.jstr "add")⟩,
      Line.ok ⟨some (.jstr "2023-11-01T00:00:00+00:00"),
        some (.jint 5), some (.jint 5), some (.jstr "add")⟩,
      Line.junk,
      Line.ok ⟨some (.jstr "not a time"),
        some (.jint 1), some (.jint 1), some (.jstr "add")⟩]
    (Datetime.instantSec ⟨2024, 1, 2, 12, 0, 0, some 0⟩) 90 rfl
  rw [h.1]
  decide

/-! State store claims. -/

theorem isoformatSec_ne_empty (dt : Datetime) : dt.isoformatSec ≠ "" := by
  intro h
  have h2 := congrArg String.toList h
  simp [Datetime.isoformatSec, pad4, String.toList] at h2

/-- C8: `load_state` on a missing state file, or on one whose JSON does
not parse (an empty file raises `json.JSONDecodeError`), returns the
default snapshot (counter 0, the supplied default step amounts,
session_start = now) with needs_resave = true; and for every snapshot
satisfying the documented invariants (non-negative integers, a valid
timezone-aware local session_start), `save_state` followed by
`load_state` returns exactly the snapshot that was saved, with
needs_resave = false. -/
theorem claim_C8_load_save_roundtrip :
    (∀ (dL dR : Int) (now : Datetime),
       load_state none dL dR now = .ok (0, dL, dR, now, true) ∧
       load_state (some .badJson) dL dR now = .ok (0, dL, dR, now, true)) ∧
    (∀ (c l r : Int) (ss : Datetime) (dL dR : Int) (now : Datetime),
       0 ≤ c → 0 ≤ l → 0 ≤ r → ss.fieldsValid = true → ss.tzoffset = some 0 →
       load_state (some (.doc (save_state_doc c l r ss))) dL dR now =
         .ok (c, l, r, ss, false)) := by
  refine ⟨fun dL dR now => ⟨rfl, rfl⟩, fun c l r ss dL dR now hc hl hr hv ho => ?_⟩
  have hiso : fromisoformat ss.isoformatSec = some ss :=
    fromisoformat_roundtrip ss hv ho
  have hne : ss.isoformatSec ≠ "" := isoformatSec_ne_empty ss
  have haz : astimezone ss = ss := by
    simp [astimezone, ho, LOCAL_OFFSET_MINUTES]
  simp [load_state, save_state_doc, intFields, pyInt, parse_iso_datetime, hne,
    hiso, haz, bind, Except.bind, pure, Except.pure, max_eq_right hc, max_eq_right hl,
    max_eq_right hr]

/-- C8 witness: a concrete save/load round-trip and the two default
cases at concrete inputs. -/
theorem claim_C8_witness :
    load_state (some (.doc (save_state_doc 5 50 10 ⟨2024, 1, 2, 12, 0, 0, some 0⟩)))
        50 10 ⟨2024, 1, 3, 9, 0, 0, some 0⟩ =
      .ok (5, 50, 10, ⟨2024, 1, 2, 12, 0, 0, some 0⟩, false) ∧
    load_state none 50 10 ⟨2024, 1, 3, 9, 0, 0, some 0⟩ =
      .ok (0, 50, 10, ⟨2024, 1, 3, 9, 0, 0, some 0⟩, true) := by
  constructor
  · exact claim_C8_load_save_roundtrip.2 5 50 10 ⟨2024, 1, 2, 12, 0, 0, some 0⟩
      50 10 ⟨2024, 1, 3, 9, 0, 0, some 0⟩ (by norm_num) (by norm_num) (by norm_num)
      (by decide) rfl
  · exact (claim_C8_load_save_roundtrip.1 50 10 ⟨2024, 1, 3, 9, 0, 0, some 0⟩).1

/-- C5 counterexample: a state file whose JSON document holds a valid
stored counter (100), a non-numeric left step amount ("x"), a missing
right step amount and a valid stored session_start.  The claim predicts
per-field recovery: counter 100 kept, left step defaulted, right step
defaulted, session_start kept, needs_resave unchanged (false).  The
code instead catches the `ValueError` from `int('x')` around the whole
read and returns the full default tuple: the valid counter and
session_start are NOT kept and needs_resave is true. -/
theorem claim_C5_counterexample :
    load_state (some (.doc ⟨some (.jint 100), some (.jstr "x"), none,
        some (.jstr "2024-01-01T08:00:00+00:00")⟩)) 50 10
        ⟨2024, 1, 2, 12, 0, 0, some 0⟩ =
      .ok (0, 50, 10, ⟨2024, 1, 2, 12, 0, 0, some 0⟩, true) ∧
    load_state (some (.doc ⟨some (.jint 100), some (.jstr "x"), none,
        some (.jstr "2024-01-01T08:00:00+00:00")⟩)) 50 10
        ⟨2024, 1, 2, 12, 0, 0, some 0⟩ ≠
      .ok (100, 50, 10, ⟨2024, 1, 1, 8, 0, 0, some 0⟩, false) := by
  decide

/-- C5 (amended): `load_state` recovers per-field only for missing keys
and out-of-range numeric values — a negative or missing counter becomes
`max 0` of its value, missing step amounts take the supplied defaults
and negative ones clamp to 0, and a missing or unparseable
session_start is replaced with now and forces needs_resave = true while
the numeric fields keep their recovered values.  However, a non-numeric
string in any of the three integer fields raises `ValueError`, which is
caught around the whole read: load then returns the full default tuple
(counter 0, default step amounts, session_start = now,
needs_resave = true), discarding the other valid stored fields. -/
theorem claim_C5_field_recovery :
    (∀ (co lo ro : Option Int) (ssv : Option JVal) (dL dR : Int) (now : Datetime),
       load_state (some (.doc ⟨co.map JVal.jint, lo.map JVal.jint,
           ro.map JVal.jint, ssv⟩)) dL dR now =
         .ok (max 0 (co.getD 0), max 0 (lo.getD dL), max 0 (ro.getD dR),
           (parse_iso_datetime ssv).getD now, (parse_iso_datetime ssv).isNone)) ∧
    (∀ (d : StateDoc) (dL dR : Int) (now : Datetime),
       intFields d dL dR = .error .valueError →
       load_state (some (.doc d)) dL dR now = .ok (0, dL, dR, now, true)) := by
  constructor
  · intro co lo ro ssv dL dR now
    cases co <;> cases lo <;> cases ro <;>
      cases hss : parse_iso_datetime ssv <;>
      simp [load_state, intFields, pyInt, hss, bind, Except.bind, pure, Except.pure]
  · intro d dL dR now h
    simp [load_state, h]

/-- C5 witness: per-field recovery of a document with a negative
counter, a missing left step and a missing session_start; and the
full-default fallback for a document with a non-numeric counter. -/
theorem claim_C5_witness :
    load_state (some (.doc ⟨some (.jint (-3)), none, some (.jint 7), none⟩))
        50 10 ⟨2024, 1, 2, 12, 0, 0, some 0⟩ =
      .ok (0, 50, 7, ⟨2024, 1, 2, 12, 0, 0, some 0⟩, true) ∧
    load_state (some (.doc ⟨some (.jstr "abc"), none, none, none⟩))
        50 10 ⟨2024, 1, 2, 12, 0, 0, some 0⟩ =
      .ok (0, 50, 10, ⟨2024, 1, 2, 12, 0, 0, some 0⟩, true) := by
  constructor
  · have h := claim_C5_field_recovery.1 (some (-3)) none (some 7) none 50 10
      ⟨2024, 1, 2, 12, 0, 0, some 0⟩
    simpa using h
  · exact claim_C5_field_recovery.2 ⟨some (.jstr "abc"), none, none, none⟩ 50 10
      ⟨2024, 1, 2, 12, 0, 0, some 0⟩ (by decide)

/-! Widget handler claims. -/

/-- C1: if appending the reset event fails, `on_reset` leaves the
in-memory counter and session_start unchanged and issues no state save;
if it succeeds, the counter is set to 0, session_start is set to the
reset time, and the subsequent save writes a document persisting
exactly those two values. -/
theorem claim_C1_reset_semantics (w : WidgetState) (t : Datetime) :
    (on_reset w t false).1 = w ∧
    (on_reset w t false).2 = [.appendEvent 0 0 "reset"] ∧
    (on_reset w t true).1.calories = 0 ∧
    (on_reset w t true).1.session_start = t ∧
    (on_reset w t true).2 =
      [.appendEvent 0 0 "reset",
       .saveState (save_state_doc 0 w.left_click_amount w.right_click_amount t)] ∧
    (save_state_doc 0 w.left_click_amount w.right_click_amount t).calories =
      some (.jint 0) ∧
    (save_state_doc 0 w.left_click_amount w.right_click_amount t).session_start =
      some (.jstr t.isoformatSec) :=
  ⟨rfl, rfl, rfl, rfl, rfl, rfl, rfl⟩

/-- C6 counterexample: a failing append during a left click.  The claim
predicts the counter mutation is not applied when the append fails, but
`on_left_click` increments the counter before the append and ignores
the append result: starting from counter 0 with step 50 and a failing
append, the in-memory counter still becomes 50. -/
theorem claim_C6_counterexample :
    (on_left_click ⟨0, 50, 10, ⟨2024, 1, 2, 12, 0, 0, some 0⟩⟩ false).1.calories = 50 ∧
    (50 : Int) ≠ 0 := by
  decide

/-- C6 (amended): only the reset flow refuses to apply its in-memory
mutation when the log append fails (state unchanged, no save issued);
the add and subtract click handlers apply their counter mutation and
re-save the snapshot regardless of the append outcome. -/
theorem claim_C6_durability_gating (w : WidgetState) (t : Datetime) (ok : Bool) :
    (on_reset w t false).1 = w ∧
    (on_reset w t false).2.all (fun eff => ! eff.isSave) = true ∧
    (on_left_click w ok).1.calories = w.calories + w.left_click_amount ∧
    (on_left_click w ok).2.any Effect.isSave = true ∧
    (on_right_click w ok).1.calories = max 0 (w.calories - w.right_click_amount) ∧
    (on_right_click w ok).2.any Effect.isSave = true := by
  refine ⟨rfl, rfl, rfl, rfl, rfl, ?_⟩
  simp [on_right_click, List.any_append, Effect.isSave]

/-- C10: a right click sets the counter to `max 0 (c - a)`; it appends
a subtract event exactly when the counter actually decreased
(`min c a > 0`) with delta the negated actual decrease, and when
nothing was subtracted no event is appended while the snapshot is still
re-saved. -/
theorem claim_C10_right_click (w : WidgetState) (ok : Bool)
    (hc : 0 ≤ w.calories) (ha : 0 ≤ w.right_click_amount) :
    (on_right_click w ok).1.calories = max 0 (w.calories - w.right_click_amount) ∧
    (0 < min w.calories w.right_click_amount →
       (on_right_click w ok).2 =
         [.appendEvent (-(min w.calories w.right_click_amount))
            (max 0 (w.calories - w.right_click_amount)) "subtract",
          .saveState (save_state_doc (max 0 (w.calories - w.right_click_amount))
            w.left_click_amount w.right_click_amount w.session_start)]) ∧
    (min w.calories w.right_click_amount = 0 →
       (on_right_click w ok).2 =
         [.saveState (save_state_doc (max 0 (w.calories - w.right_click_amount))
            w.left_click_amount w.right_click_amount w.session_start)]) := by
  have hmin : w.calories - max 0 (w.calories - w.right_click_amount) =
      min w.calories w.right_click_amount := by omega
  refine ⟨rfl, fun h => ?_, fun h => ?_⟩
  · simp only [on_right_click, hmin]
    rw [if_pos h]
    simp
  · simp only [on_right_click, hmin]
    rw [if_neg (by omega)]
    simp

/-- C10 witness: a subtracting click at counter 5 (partial decrease,
event appended with delta -5) and a click at counter 0 (no event, save
still issued). -/
theorem claim_C10_witness :
    (on_right_click ⟨5, 50, 10, ⟨2024, 1, 2, 12, 0, 0, some 0⟩⟩ true).2 =
      [.appendEvent (-5) 0 "subtract",
       .saveState (save_state_doc 0 50 10 ⟨2024, 1, 2, 12, 0, 0, some 0⟩)] ∧
    (on_right_click ⟨0, 50, 10, ⟨2024, 1, 2, 12, 0, 0, some 0⟩⟩ true).2 =
      [.saveState (save_state_doc 0 50 10 ⟨2024, 1, 2, 12, 0, 0, some 0⟩)] := by
  constructor
  · have h := (claim_C10_right_click ⟨5, 50, 10, ⟨2024, 1, 2, 12, 0, 0, some 0⟩⟩
      true (by norm_num) (by norm_num)).2.1 (by norm_num)
    simpa using h
  · have h := (claim_C10_right_click ⟨0, 50, 10, ⟨2024, 1, 2, 12, 0, 0, some 0⟩⟩
      true (by norm_num) (by norm_num)).2.2 (by norm_num)
    simpa using h

/-! Weekly aggregator claims. -/

theorem foldl_id {α β : Type} (f : α → β → α) (h : ∀ a b, f a b = a)
    (init : α) (l : List β) : l.foldl f init = init := by
  induction l with
  | nil => rfl
  | cons x t ih => rw [List.foldl_cons, h]; exact ih

theorem aggStep_const (keys : List String) (init : AggState) (evs : List Entry)
    (h : ∀ e ∈ evs, qualifyEvent keys e = none) :
    evs.foldl (aggStep keys) init = init := by
  induction evs with
  | nil => rfl
  | cons e t ih =>
    rw [List.foldl_cons]
    have he : qualifyEvent keys e = none := h e (by simp)
    have h2 : aggStep keys init e = init := by simp [aggStep, he]
    rw [h2]
    exact ih fun x hx => h x (by simp [hx])

theorem renderStep_no_tracking (startOrd : Nat) (ag : AggState) (td : Date)
    (acc : RenderAcc) (off : Nat) :
    renderStep startOrd ag td false acc off = acc := by
  simp [renderStep]

/-- C4 counterexample: with no qualifying events anywhere in the 7-day
window (an empty active log), `build_last_week_summary` does NOT return
a plain string — it returns the structured summary object whose text is
the "no data" message and whose bar list is empty.  The plain-string
shape is produced only when reading the log fails. -/
theorem claim_C4_counterexample :
    (build_last_week_summary (some []) true
        ⟨2024, 1, 2, 12, 0, 0, some 0⟩).isString = false ∧
    build_last_week_summary (some []) true ⟨2024, 1, 2, 12, 0, 0, some 0⟩ =
      .summary "\nNo tracked data in the last 7 days." [] ∧
    (build_last_week_summary (some []) false
        ⟨2024, 1, 2, 12, 0, 0, some 0⟩).isString = true := by
  refine ⟨by decide, by decide, by decide⟩

/-- C4 (amended): when no qualifying events exist anywhere in the 7-day
window, the aggregator returns the structured summary object with text
"No tracked data in the last 7 days." (after a blank separator line)
and an empty bar list; the plain human-readable string shape is
returned only when reading the session log fails, and that failure
string is what callers branching on result shape actually
distinguish. -/
theorem claim_C4_no_data_result (lines : List Line) (now : Datetime)
    (h : ∀ e ∈ iter_recent_session_events (some lines) (windowStart now),
       qualifyEvent (weekKeys now) e = none) :
    build_last_week_summary (some lines) true now =
      .summary "\nNo tracked data in the last 7 days." [] ∧
    build_last_week_summary (some lines) false now =
      .message "Failed to read weekly summary." := by
  constructor
  · have h1 := aggStep_const (weekKeys now)
      { totals := (weekKeys now).map (fun k => (k, 0)), hasData := [], firstTs := none }
      (iter_recent_session_events (some lines) (windowStart now)) h
    have h2 := foldl_id _
      (renderStep_no_tracking (weekStartOrd now)
        { totals := (weekKeys now).map (fun k => (k, 0)), hasData := [], firstTs := none }
        (Datetime.date (windowStart now)))
      ({ lines := [], bars := [], total := 0, days := 0 } : RenderAcc) (List.range 7)
    unfold build_last_week_summary
    simp only [Option.isSome_some, Bool.not_true, Bool.and_false, Bool.false_eq_true,
      if_false, h1, Option.getD_some, Option.getD_none, Option.isSome_none, h2]
    rfl
  · rfl

/-- C4 witness: a log holding only a malformed line has no qualifying
events; the aggregator returns the structured no-data summary, and the
string shape appears only on a read failure. -/
theorem claim_C4_witness :
    build_last_week_summary (some [Line.junk]) true
        ⟨2024, 1, 2, 12, 0, 0, some 0⟩ =
      .summary "\nNo tracked data in the last 7 days." [] ∧
    build_last_week_summary (some [Line.junk]) false
        ⟨2024, 1, 2, 12, 0, 0, some 0⟩ =
      .message "Failed to read weekly summary." :=
  claim_C4_no_data_result [Line.junk] ⟨2024, 1, 2, 12, 0, 0, some 0⟩
    (by intro e he; simp [iter_recent_session_events] at he)

/-- C7: for the log holding exactly `init 0` at 2024-01-01T08:00,
`add +50` at 2024-01-01T09:00 and `subtract -10` at 2024-01-02T10:00,
the weekly summary taken at 2024-01-02T12:00 (a 7-day window including
both dates) reports day 2024-01-01 net +50, day 2024-01-02 net -10, a
tracked-period total of +40 and a daily average of +20.0 per day
(total divided by the two included days, one decimal place, explicit
sign). -/
theorem claim_C7_aggregator_example :
    build_last_week_summary
        (some [Line.ok ⟨some (.jstr "2024-01-01T08:00"), some (.jint 0),
            some (.jint 0), some (.jstr "init")⟩,
          Line.ok ⟨some (.jstr "2024-01-01T09:00"), some (.jint 50),
            some (.jint 50), some (.jstr "add")⟩,
          Line.ok ⟨some (.jstr "2024-01-02T10:00"), some (.jint (-10)),
            some (.jint 40), some (.jstr "subtract")⟩])
        true ⟨2024, 1, 2, 12, 0, 0, some 0⟩ =
      .summary ("2024-01-01 (Mon): net +50 kcal\n2024-01-02 (Tue): net -10 kcal\n" ++
          "\nTracked-period net: +40 kcal\nTracked-period average net: +20.0 kcal/day")
        [⟨"2024-01-01", "Mon", 50⟩, ⟨"2024-01-02", "Tue", -10⟩] := by
  decide

end CalorieCounter
